import Mathlib

/-!
Verification development for the panuts.com scraper repository
(`scraper/scraper.py` and `scraper/enrich-attributes.py`).

The Python sources are shallowly embedded below: pure functions become Lean
functions over `String`/`List`/`ℚ`; the `while` loop of the catalogue crawler
becomes a fuel-indexed recursion; fallible operations return `Option`.
Library code that the repository calls (CPython's `urllib.robotparser`,
`urllib.parse`, `json`, BeautifulSoup selection) is modelled explicitly; each
such model carries a doc comment naming the library behaviour it captures and
any simplification made (none of the simplified corners is exercised by the
theorems).  Python `float` prices are modelled as `ℚ`: every price literal the
theorems touch is decimal and exactly representable.
-/

namespace Panuts

/-! ## Python string primitives -/

/-- Model of Python `str.strip()` (strip ASCII whitespace at both ends). -/
def pyStrip (s : String) : String := s.trim

/-- Strip a given character from both ends of a char list, as Python
`str.strip(c)` does (e.g. `cleaned.strip(".")` in `parse_price`). -/
def stripChar (c : Char) (l : List Char) : List Char :=
  ((l.dropWhile (· = c)).reverse.dropWhile (· = c)).reverse

/-- Index of the last occurrence of `c` in `l`, as Python `str.rfind`.
Only meaningful when `c` occurs (the scraper only compares the two results
when both characters are present). -/
def rfindPos (l : List Char) (c : Char) : Nat :=
  l.length - 1 - l.reverse.findIdx (· = c)

/-- Numeric value of a digit string (most significant first). -/
def natVal (l : List Char) : Nat :=
  l.foldl (fun a c => 10 * a + (c.toNat - 48)) 0

/-- Model of Python `float(s)` restricted to strings made of digits and dots
(the only shape `parse_price` can feed it): accepted iff there is at most one
dot and at least one digit; returns the exact decimal value. -/
def pyFloat? (l : List Char) : Option ℚ :=
  let intPart := l.takeWhile (· ≠ '.')
  let rest := l.drop intPart.length
  if ¬ intPart.all Char.isDigit then none
  else
    match rest with
    | [] => if intPart.isEmpty then none else some (natVal intPart)
    | '.' :: frac =>
        if frac.contains '.' ∨ ¬ frac.all Char.isDigit then none
        else if intPart.isEmpty ∧ frac.isEmpty then none
        else some (mkRat (natVal intPart * 10 ^ frac.length + natVal frac) (10 ^ frac.length))
    | _ => none

/-- Embedding of `parse_price` (scraper.py lines 136-161).
`re.sub(r"[^\d,\.]", "", text)` keeps digits, commas and dots;
`.strip(".")` removes dots at both ends; when both a comma and a dot are
present the rightmost one decides the locale convention; a lone comma is a
decimal point; unparseable input yields 0. -/
def parse_price (text : String) : ℚ :=
  if text = "" then 0
  else
    let cleaned := text.toList.filter (fun c => c.isDigit ∨ c = ',' ∨ c = '.')
    let cleaned := stripChar '.' cleaned
    let cleaned :=
      if cleaned.contains ',' ∧ cleaned.contains '.' then
        if rfindPos cleaned ',' < rfindPos cleaned '.' then
          cleaned.filter (· ≠ ',')
        else
          (cleaned.filter (· ≠ '.')).map (fun c => if c = ',' then '.' else c)
      else if cleaned.contains ',' then
        cleaned.map (fun c => if c = ',' then '.' else c)
      else cleaned
    (pyFloat? cleaned).getD 0

/-! ## URL parsing (model of `urllib.parse` as used by the scraper)

The scraper only parses absolute `http(s)` URLs (`urlparse(absolute)` after
`urljoin(BASE_URL, href)`).  We model `scheme://netloc/path?query#fragment`
splitting directly; the registered-scheme subtleties of `urllib.parse` are
not exercised.  All computation is on `List Char` so that concrete instances
reduce in the kernel. -/

/-- Split a URL at the first occurrence of `"://"`, returning the scheme part
and the remainder; `none` when there is no `"://"` (relative reference). -/
def schemeSplitChars : List Char → Option (List Char × List Char)
  | [] => none
  | c :: cs =>
    match c, cs with
    | ':', '/' :: '/' :: rest => some ([], rest)
    | _, _ => (schemeSplitChars cs).map (fun p => (c :: p.1, p.2))

/-- Characters that terminate the netloc component. -/
def endsNetloc (c : Char) : Bool := c = '/' || c = '?' || c = '#'

/-- Model of `urlparse(url).netloc` for the URL shapes the scraper meets. -/
def netlocOf (url : String) : String :=
  match schemeSplitChars url.toList with
  | none => ""
  | some (_, rest) => String.mk (rest.takeWhile (fun c => !endsNetloc c))

/-- Model of `urlparse(url).path` for the URL shapes the scraper meets. -/
def pathOf (url : String) : String :=
  match schemeSplitChars url.toList with
  | none => String.mk (url.toList.takeWhile (fun c => !(c = '?' || c = '#')))
  | some (_, rest) =>
      String.mk
        ((rest.dropWhile (fun c => !endsNetloc c)).takeWhile (fun c => !(c = '?' || c = '#')))

/-! ## The product-URL pattern of `discover_product_urls`

`scraper.py` line 359: `re.search(r"/(producto|product)/[^/]+/?$", path)`.
The pattern is end-anchored, so `re.search` succeeds iff some suffix of the
path matches `/(producto|product)/[^/]+/?` exactly up to the end of the
string; `productPathTest` scans every suffix accordingly. -/

/-- `[^/]*`-style check: no slash among the characters. -/
def noSlash (l : List Char) : Bool := l.all (· ≠ '/')

/-- Does `r` match `[^/]+/?` exactly (a non-empty run of non-slash characters,
optionally followed by one final slash)? -/
def slugOk (r : List Char) : Bool :=
  let r' := if r.getLast? = some '/' then r.dropLast else r
  !r'.isEmpty && noSlash r'

/-- Does `l` match `/w/[^/]+/?` exactly to its end (for the literal word `w`)? -/
def tailMatch (w l : List Char) : Bool :=
  ('/' :: (w ++ ['/'])).isPrefixOf l && slugOk (l.drop (w.length + 2))

/-- Embedding of `re.search(r"/(producto|product)/[^/]+/?$", path) is not None`. -/
def productPathTest (path : String) : Bool :=
  path.toList.tails.any (fun l => tailMatch "producto".toList l || tailMatch "product".toList l)

/-- `BASE_URL` of scraper.py. -/
def BASE_URL : String := "https://panuts.com"

/-- The acceptance test applied to each resolved anchor URL in
`discover_product_urls` (scraper.py lines 353-360): same host as the base URL
and a path matching the product pattern. -/
def acceptsProductURL (absolute : String) : Bool :=
  netlocOf absolute == netlocOf BASE_URL && productPathTest (pathOf absolute)

/-- The claim's characterization of accepted paths, stated in the spec's own
words: the path ends in a segment literally `producto` or `product` followed
by a single non-empty slug segment, optionally with a trailing slash.  Used
only to compare `productPathTest` against the spec. -/
def SpecProductPath (path : String) : Prop :=
  ∃ pre w slug t : List Char,
    path.toList = pre ++ '/' :: (w ++ '/' :: (slug ++ t)) ∧
    (w = "producto".toList ∨ w = "product".toList) ∧
    slug ≠ [] ∧ noSlash slug = true ∧ (t = [] ∨ t = ['/'])

/-! ## robots.txt policy

Model of CPython `urllib.robotparser.RobotFileParser` (the library that
scraper.py drives) together with the repository's `build_robot_parser`
(scraper.py lines 178-201).  Percent-(un)quoting is modelled as the identity:
every URL and rule path in play is plain ASCII without percent-escapes. -/

/-- ASCII lower-casing (CPython `str.lower` on the ASCII strings in play). -/
def pyLower (s : String) : String := String.mk (s.toList.map Char.toLower)

/-- Python `str.strip()` on a char list. -/
def pyStripChars (l : List Char) : List Char :=
  ((l.dropWhile Char.isWhitespace).reverse.dropWhile Char.isWhitespace).reverse

/-- Substring test, Python `needle in haystack`. -/
def strContains (hay needle : String) : Bool :=
  hay.toList.tails.any (needle.toList.isPrefixOf ·)

/-- A robots.txt rule line (CPython `RuleLine`). -/
structure RuleLine where
  path : String
  allowance : Bool

/-- CPython `RuleLine.__init__`: an empty `Disallow:` value means allow-all. -/
def mkRuleLine (path : String) (allowance : Bool) : RuleLine :=
  if path = "" ∧ ¬ allowance then ⟨path, true⟩ else ⟨path, allowance⟩

/-- A robots.txt entry (CPython `Entry`).  The `crawl-delay`/`request-rate`
payloads are not stored (they never influence `can_fetch`); their effect on
the parser state machine is kept below. -/
structure REntry where
  useragents : List String
  rulelines : List RuleLine

/-- CPython `Entry.applies_to`: the agent token before the first `/` is
lower-cased; an entry applies when one of its agents is `*` or occurs as a
substring of that token. -/
def entryAppliesTo (e : REntry) (useragent : String) : Bool :=
  let ua := pyLower (String.mk (useragent.toList.takeWhile (· ≠ '/')))
  e.useragents.any (fun agent => agent == "*" || strContains ua (pyLower agent))

/-- CPython `Entry.allowance`: the first applicable rule decides; no
applicable rule means allow. -/
def entryAllowance (e : REntry) (filename : String) : Bool :=
  match e.rulelines.find? (fun line =>
      line.path == "*" || line.path.toList.isPrefixOf filename.toList) with
  | some line => line.allowance
  | none => true

/-- The state of a CPython `RobotFileParser` as far as `can_fetch` observes
it; `lastChecked` models `last_checked ≠ 0`. -/
structure RobotState where
  disallowAll : Bool
  allowAll : Bool
  lastChecked : Bool
  entries : List REntry
  defaultEntry : Option REntry

/-- A freshly constructed `RobotFileParser`. -/
def initRobotState : RobotState :=
  { disallowAll := false, allowAll := false, lastChecked := false,
    entries := [], defaultEntry := none }

/-- CPython `RobotFileParser._add_entry`: the first `*` entry becomes the
default entry; later `*` entries are dropped; others are appended. -/
def addEntry (st : RobotState) (e : REntry) : RobotState :=
  if e.useragents.contains "*" then
    match st.defaultEntry with
    | none => { st with defaultEntry := some e }
    | some _ => st
  else { st with entries := st.entries ++ [e] }

/-- Split at the first `:`, Python `line.split(':', 1)` when two parts. -/
def splitKV (l : List Char) : Option (List Char × List Char) :=
  let k := l.takeWhile (· ≠ ':')
  if k.length = l.length then none else some (k, l.drop (k.length + 1))

/-- One line of the CPython `RobotFileParser.parse` state machine
(states: 0 start, 1 saw user-agent, 2 saw rule).  `sitemap` lines only
append to the sitemap list and leave the state unchanged. -/
def parseRobotsLine (acc : RobotState × REntry × Nat) (rawLine : String) :
    RobotState × REntry × Nat :=
  let (st, entry, state) := acc
  let (st, entry, state) :=
    if rawLine = "" then
      if state = 1 then (st, (⟨[], []⟩ : REntry), 0)
      else if state = 2 then (addEntry st entry, (⟨[], []⟩ : REntry), 0)
      else (st, entry, state)
    else (st, entry, state)
  let line := pyStripChars (rawLine.toList.takeWhile (· ≠ '#'))
  if line.isEmpty then (st, entry, state)
  else
    match splitKV line with
    | none => (st, entry, state)
    | some (k, v) =>
      let key := pyLower (String.mk (pyStripChars k))
      let value := String.mk (pyStripChars v)
      if key = "user-agent" then
        let (st, entry) :=
          if state = 2 then (addEntry st entry, (⟨[], []⟩ : REntry)) else (st, entry)
        (st, { entry with useragents := entry.useragents ++ [value] }, 1)
      else if key = "disallow" then
        if state ≠ 0 then
          (st, { entry with rulelines := entry.rulelines ++ [mkRuleLine value false] }, 2)
        else (st, entry, state)
      else if key = "allow" then
        if state ≠ 0 then
          (st, { entry with rulelines := entry.rulelines ++ [mkRuleLine value true] }, 2)
        else (st, entry, state)
      else if key = "crawl-delay" ∨ key = "request-rate" then
        if state ≠ 0 then (st, entry, 2) else (st, entry, state)
      else (st, entry, state)

/-- CPython `RobotFileParser.parse(lines)`: runs the state machine over the
lines and sets `last_checked` (via `modified()`). -/
def parseRobots (lines : List String) : RobotState :=
  let res := lines.foldl parseRobotsLine
    ({ initRobotState with lastChecked := true }, (⟨[], []⟩ : REntry), 0)
  if res.2.2 = 2 then addEntry res.1 res.2.1 else res.1

/-- The path component `can_fetch` matches rules against: CPython rebuilds
path+params+query+fragment of the URL (everything past the netloc) and falls
back to `"/"` when empty. -/
def robotsPathOf (url : String) : String :=
  let rest :=
    match schemeSplitChars url.toList with
    | none => url.toList
    | some (_, r) => r.dropWhile (fun c => !endsNetloc c)
  if rest.isEmpty then "/" else String.mk rest

/-- CPython `RobotFileParser.can_fetch`: `disallow_all` wins, then
`allow_all`; an unread file (`last_checked = 0`) denies everything; otherwise
the first entry applying to the agent (default entry last) decides, and no
entry at all means allow. -/
def canFetch (rp : RobotState) (useragent url : String) : Bool :=
  if rp.disallowAll then false
  else if rp.allowAll then true
  else if ¬ rp.lastChecked then false
  else
    let path := robotsPathOf url
    match rp.entries.find? (fun e => entryAppliesTo e useragent) with
    | some e => entryAllowance e path
    | none =>
      match rp.defaultEntry with
      | some e => entryAllowance e path
      | none => true

/-- Outcome of the startup robots.txt fetch inside `build_robot_parser`. -/
inductive RobotsFetch where
  | status (code : Nat) (lines : List String)
  | netError

/-- Embedding of `build_robot_parser` (scraper.py lines 178-201; renamed
`build_robot_policy` here): HTTP 200 ⇒ parse the body lines; 401/403 ⇒
`disallow_all = True`; any other status or a network error leaves the freshly
constructed parser untouched. -/
def build_robot_policy : RobotsFetch → RobotState
  | .status code lines =>
    if code = 200 then parseRobots lines
    else if code = 401 ∨ code = 403 then { initRobotState with disallowAll := true }
    else initRobotState
  | .netError => initRobotState

/-- The crawler's User-Agent header string (scraper.py `HEADERS`). -/
def USER_AGENT : String :=
  "Mozilla/5.0 (compatible; WCMeilisearchBot/1.0; +https://github.com/local/wc-meilisearch)"

/-- The startup root-policy check of `main` (scraper.py lines 398-402):
`true` iff the run prints an error and aborts before any product work. -/
def robotsStartupAborts (rp : RobotState) : Bool :=
  !canFetch rp USER_AGENT (BASE_URL ++ "/") && !canFetch rp "*" (BASE_URL ++ "/")

/-! ## JSON values and the attribute extractors

`extract_attributes` (scraper.py lines 88-133) and `fetch_attributes`
(enrich-attributes.py lines 70-125) read two sources: the structured
attribute block (Strategy 1) and the JSON-LD scripts (Strategy 2).  JSON
values are modelled by `JVal` (JSON numbers as integers: no claim touches a
fractional JSON number); a script element carries the outcome of
`json.loads(script.string or "")`, with `none` for a parse failure. -/

inductive JVal where
  | null
  | bool (b : Bool)
  | num (n : Int)
  | str (s : String)
  | arr (xs : List JVal)
  | obj (kvs : List (String × JVal))

/-- Python truthiness of a JSON value. -/
def jTruthy : JVal → Bool
  | .null => false
  | .bool b => b
  | .num n => n != 0
  | .str s => s != ""
  | .arr xs => !xs.isEmpty
  | .obj kvs => !kvs.isEmpty

/-- `dict.get` on a JSON object's bindings (first binding wins). -/
def jGet (kvs : List (String × JVal)) (k : String) : Option JVal :=
  (kvs.find? (fun kv => kv.1 == k)).map (fun kv => kv.2)

/-- Python `str()` of a JSON value.  Scalars follow Python; containers are
modelled coarsely (no claim stringifies a container). -/
def pyStr : JVal → String
  | .null => "None"
  | .bool b => if b then "True" else "False"
  | .num n => toString n
  | .str s => s
  | .arr _ => "[...]"
  | .obj _ => "dict"

/-- NFKD accent folding for the Latin letters the attribute labels use
(`unicodedata.normalize("NFKD", ·)` followed by dropping combining marks).
Uppercase accented letters are folded directly, because `Char.toLower`
lowers only ASCII while Python's `str.lower` also lowers them. -/
def deaccent (c : Char) : Char :=
  if c = 'á' ∨ c = 'Á' then 'a'
  else if c = 'é' ∨ c = 'É' then 'e'
  else if c = 'í' ∨ c = 'Í' then 'i'
  else if c = 'ó' ∨ c = 'Ó' then 'o'
  else if c = 'ú' ∨ c = 'Ú' ∨ c = 'ü' ∨ c = 'Ü' then 'u'
  else if c = 'ñ' ∨ c = 'Ñ' then 'n'
  else c

/-- Embedding of `_norm` (scraper.py lines 83-85) and of the identical
`normalise` (enrich-attributes.py lines 64-67): lower-case, strip,
decompose-and-drop-diacritics. -/
def normText (s : String) : String :=
  String.mk ((pyStripChars (s.toList.map Char.toLower)).map deaccent)

/-- `ATTR_LABEL_MAP` (scraper.py lines 71-80); `LABEL_MAP` of
enrich-attributes.py (lines 46-55) is the identical table. -/
def ATTR_LABEL_MAP : List (String × String) :=
  [("marca", "marca"), ("pais", "pais"), ("país", "pais"),
   ("region", "region"), ("región", "region"), ("tipo", "tipo"),
   ("varietal", "varietal"), ("volumen", "volumen")]

/-- Python `ATTR_LABEL_MAP.get(k)`. -/
def labelGet (k : String) : Option String :=
  (ATTR_LABEL_MAP.find? (fun p => p.1 == k)).map (fun p => p.2)

/-- Attribute dictionaries: insertion-ordered string-to-string mappings. -/
abbrev Attrs := List (String × String)

/-- Python `d[k] = v`: overwrite the existing binding in place, else append. -/
def attrsSet : Attrs → String → String → Attrs
  | [], k, v => [(k, v)]
  | (k1, v1) :: t, k, v => if k1 = k then (k, v) :: t else (k1, v1) :: attrsSet t k v

/-- Auxiliary for whitespace collapapsing: squeeze whitespace runs to a single
space (`prevWs` records whether the previous character was whitespace). -/
def squeezeWsAux (prevWs : Bool) : List Char → List Char
  | [] => []
  | c :: cs =>
    if c.isWhitespace then
      if prevWs then squeezeWsAux true cs else ' ' :: squeezeWsAux true cs
    else c :: squeezeWsAux false cs

/-- `re.sub(r"\s+", " ", value).strip()` as applied to the `dd` value text. -/
def collapseWs (s : String) : String :=
  String.mk (pyStripChars (squeezeWsAux false s.toList))

/-- Python `name.replace("pa_", "")`: remove every occurrence, scanning left
to right. -/
def removePaSub : List Char → List Char
  | 'p' :: 'a' :: '_' :: rest => removePaSub rest
  | c :: cs => c :: removePaSub cs
  | [] => []

/-- Model of the element found by `select_one("dl.woocommerce-product-attributes,
table.woocommerce-product-attributes")`: the stripped texts of its `dt`
children and the space-joined texts of its `dd` children, in document order. -/
structure AttrBlock where
  dts : List String
  dds : List String

/-- The attribute-relevant queries on a parsed page: the structured attribute
block (Strategy 1) and the `json.loads` outcome of each
`script[type="application/ld+json"]` element (Strategy 2). -/
structure AttrSoup where
  attrBlock : Option AttrBlock
  ldScripts : List (Option JVal)

/-- The per-pair body of Strategy 1: normalize the `dt` label, look it up,
collapse whitespace in the `dd` value, store when non-empty. -/
def s1step (attrs : Attrs) (p : String × String) : Attrs :=
  match labelGet (normText p.1) with
  | some slug =>
    if collapseWs p.2 ≠ "" then attrsSet attrs slug (collapseWs p.2) else attrs
  | none => attrs

/-- Strategy 1 of `extract_attributes` (scraper.py lines 96-104) and of
`fetch_attributes` (enrich-attributes.py lines 79-93): `zip` the `dt` and
`dd` lists (truncating to the shorter) and fold the pair step. -/
def strategy1 (blk : Option AttrBlock) : Attrs :=
  match blk with
  | none => []
  | some b => (b.dts.zip b.dds).foldl s1step []

/-- Is this JSON value a dict with `@type == "Product"`? (used both by the
`next(...)` selection over a list and by the subsequent guard). -/
def jIsProduct : JVal → Bool
  | .obj kvs =>
    match jGet kvs "@type" with
    | some (.str s) => s == "Product"
    | _ => false
  | _ => false

/-- `data.get("additionalProperty", [])` as an iteration source: a missing
key or an empty container iterates over nothing; a list yields its items;
any other present value either is not iterable or yields non-dict items
whose `.get` raises — surfacing as the exception case (`Except.error`). -/
def propsSource (kvs : List (String × JVal)) : Except Unit (List JVal) :=
  match jGet kvs "additionalProperty" with
  | none => .ok []
  | some (.arr l) => .ok l
  | some (.str "") => .ok []
  | some (.obj []) => .ok []
  | some _ => .error ()

/-- The body for a single `additionalProperty` entry (shared verbatim
between scraper.py lines 120-127 and enrich-attributes.py lines 107-115):
skip falsy names or values, strip `"pa_"` from the name, normalize, look the
label up, store the stripped string value.  `Except.error` models the Python
body raising (non-dict property, non-string name), carrying the dict as
updated so far. -/
def processProp (attrs : Attrs) (p : JVal) : Except Attrs Attrs :=
  match p with
  | .obj kvs =>
    let name := (jGet kvs "name").getD (.str "")
    let value := (jGet kvs "value").getD (.str "")
    if ¬ (jTruthy name = true ∧ jTruthy value = true) then .ok attrs
    else
      match name with
      | .str ns =>
        match labelGet (normText (String.mk (removePaSub ns.toList))) with
        | some slug =>
            .ok (attrsSet attrs slug (String.mk (pyStripChars (pyStr value).toList)))
        | none => .ok attrs
      | _ => .error attrs
  | _ => .error attrs

/-- Fold `processProp` over the property list; the boolean is `false` when
the Python loop raised part-way (keeping the updates made so far, since the
dict is shared). -/
def processProps (attrs : Attrs) : List JVal → Attrs × Bool
  | [] => (attrs, true)
  | p :: rest =>
    match processProp attrs p with
    | .ok a => processProps a rest
    | .error a => (a, false)

/-- One `script` element of Strategy 2: `none` models a `json.loads`
failure; a JSON list selects its first `Product` dict (default `{}`); a
non-`Product` value is skipped without touching the dict.  The boolean is
`false` exactly when the Python body raised (`except ...: pass`). -/
def processScript (attrs : Attrs) (sc : Option JVal) : Attrs × Bool :=
  match sc with
  | none => (attrs, false)
  | some data0 =>
    let data :=
      match data0 with
      | .arr l => (l.find? jIsProduct).getD (.obj [])
      | _ => data0
    match data with
    | .obj kvs =>
      if jIsProduct (.obj kvs) then
        match propsSource kvs with
        | .ok props => processProps attrs props
        | .error _ => (attrs, false)
      else (attrs, true)
    | _ => (attrs, true)

/-- Strategy 2 loop of `extract_attributes` (scraper.py lines 109-133): a
script that completes without raising and leaves a non-empty dict returns
it; otherwise continue with the (possibly partially updated) dict; after the
loop the function returns `{}` (line 133). -/
def strategy2_scraper (attrs : Attrs) : List (Option JVal) → Attrs
  | [] => []
  | sc :: rest =>
    let res := processScript attrs sc
    if res.2 = true ∧ res.1 ≠ [] then res.1 else strategy2_scraper res.1 rest

/-- `extract_attributes` (scraper.py lines 88-133): Strategy 1, and only if
it produced nothing, the Strategy 2 loop over the shared (empty) dict. -/
def extract_attributes (soup : AttrSoup) : Attrs :=
  let attrs := strategy1 soup.attrBlock
  if attrs ≠ [] then attrs else strategy2_scraper attrs soup.ldScripts

/-- Strategy 2 loop of `fetch_attributes` (enrich-attributes.py lines
96-119): like the scraper's, but after the loop the accumulated dict is
returned as-is (the function ends with `return attrs`). -/
def strategy2_enrich (attrs : Attrs) : List (Option JVal) → Attrs
  | [] => attrs
  | sc :: rest =>
    let res := processScript attrs sc
    if res.2 = true ∧ res.1 ≠ [] then res.1 else strategy2_enrich res.1 rest

/-- The extraction body of `fetch_attributes` (enrich-attributes.py lines
77-121) on an already-fetched page. -/
def enrichExtract (soup : AttrSoup) : Attrs :=
  let attrs := strategy1 soup.attrBlock
  if attrs ≠ [] then attrs else strategy2_enrich attrs soup.ldScripts

/-- `fetch_attributes` (enrich-attributes.py lines 70-125): any fetch/parse
failure (timeout, connection error, non-2xx via `raise_for_status`) is
caught by the outer `except` and yields `{}`; otherwise the extraction body
runs on the parsed page. -/
def fetch_attributes (fetchPage : String → Option AttrSoup) (url : String) : Attrs :=
  match fetchPage url with
  | none => []
  | some soup => enrichExtract soup

/-- The fixed allowed attribute-key set of the spec. -/
def allowedAttrKeys : List String :=
  ["marca", "pais", "region", "tipo", "varietal", "volumen"]

/-- All keys of an attribute dict lie in the allowed set. -/
def keysAllowed (d : Attrs) : Prop :=
  ∀ k, k ∈ d.map Prod.fst → k ∈ allowedAttrKeys

/-! ## Product pages (`parse_product_page`, scraper.py lines 207-311)

BeautifulSoup selection is modelled as an oracle: `PSoup` carries one field
per CSS query the function makes, holding the element(s) that query returns;
`PElem` carries the texts and attributes the code reads off an element.  The
extraction logic downstream of selection is embedded verbatim. -/

/-- A selected element: `textStrip` is `get_text(strip=True)`, `textSpace`
is `get_text(" ", strip=True)`, `bdi` is the stripped text of
`select_one("bdi")` inside it when present, and the remaining fields model
`get("href", "")`, `get("data-large_image")` and `get("src")`. -/
structure PElem where
  textStrip : String := ""
  textSpace : String := ""
  bdi : Option String := none
  href : String := ""
  dataLargeImage : Option String := none
  src : Option String := none

/-- The queries `parse_product_page` makes on a parsed page, one field per
selector. -/
structure PSoup where
  productTitle : Option PElem := none      -- select_one(".product_title")
  entryTitle : Option PElem := none        -- select_one("h1.entry-title")
  h1 : Option PElem := none                -- select_one("h1")
  skuEl : Option PElem := none             -- select_one(".sku")
  priceInsBdi : Option PElem := none       -- select_one(".price ins bdi")
  priceInsAmount : Option PElem := none    -- select_one(".price ins .amount")
  priceDelBdi : Option PElem := none       -- select_one(".price del bdi")
  priceDelAmount : Option PElem := none    -- select_one(".price del .amount")
  priceTopBdi : Option PElem := none       -- select_one(".price > .woocommerce-Price-amount bdi")
  priceBdi : Option PElem := none          -- select_one(".price bdi")
  priceAmount : Option PElem := none       -- select_one(".price .amount")
  shortDescEl : Option PElem := none       -- select_one(".woocommerce-product-details__short-description")
  tabDescEl : Option PElem := none         -- select_one("#tab-description .woocommerce-Tabs-panel")
  entryContentEl : Option PElem := none    -- select_one(".entry-content")
  postedIn : List PElem := []              -- select(".posted_in a")
  taggedAs : List PElem := []              -- select(".tagged_as a")
  galleryAnchors : List PElem := []        -- select(".woocommerce-product-gallery__image a")
  galleryImgs : List PElem := []           -- select(".woocommerce-product-gallery__image img")
  stockEl : Option PElem := none           -- select_one(".stock")
  addToCart : Option PElem := none         -- select_one(".single_add_to_cart_button")
  attrSoup : AttrSoup := ⟨none, []⟩        -- the queries of extract_attributes

/-- The `Product` dataclass (scraper.py lines 47-63); prices as `ℚ`. -/
structure Product where
  name : String
  sku : String
  price : ℚ
  regular_price : ℚ
  sale_price : Option ℚ
  description : String
  short_description : String
  categories : List String
  tags : List String
  images : List String
  stock_status : String
  url : String
  source : String := "panuts.com"
  external_id : String := ""
  attributes : Attrs := []
deriving DecidableEq

/-- The inner `extract_price` helper (scraper.py lines 225-231): the `bdi`
child text when present, else the element text, fed to `parse_price`; a
missing element yields 0.0. -/
def extract_price (el : Option PElem) : ℚ :=
  match el with
  | none => 0
  | some e =>
    match e.bdi with
    | some t => parse_price t
    | none => parse_price e.textStrip

/-- Python `a or b` on floats (`0.0` is falsy). -/
def orQ (a b : ℚ) : ℚ := if a ≠ 0 then a else b

/-- Python `a or b` on optional elements (`None` is falsy). -/
def orEl (a b : Option PElem) : Option PElem :=
  match a with
  | some e => some e
  | none => b

/-- `sale_price_raw` (scraper.py line 233). -/
def saleRaw (s : PSoup) : ℚ :=
  orQ (extract_price s.priceInsBdi) (extract_price s.priceInsAmount)

/-- `regular_price_raw` (scraper.py line 234). -/
def regularRaw (s : PSoup) : ℚ :=
  orQ (extract_price s.priceDelBdi) (extract_price s.priceDelAmount)

/-- `current_price_raw` (scraper.py lines 235-239). -/
def currentRaw (s : PSoup) : ℚ :=
  orQ (extract_price s.priceTopBdi)
    (orQ (extract_price s.priceBdi) (extract_price s.priceAmount))

/-- Keep an optional string only when Python-truthy (non-empty). -/
def truthyStr : Option String → Option String
  | some s => if s = "" then none else some s
  | none => none

/-- `el.get("data-large_image") or el.get("src") or ""` (scraper.py 272). -/
def imgSrcOf (e : PElem) : String :=
  match truthyStr e.dataLargeImage with
  | some s => s
  | none =>
    match truthyStr e.src with
    | some s => s
    | none => ""

/-- Python `str.split(sep)` for a single-character separator. -/
def splitOnChar (c : Char) : List Char → List (List Char)
  | [] => [[]]
  | x :: xs =>
    let r := splitOnChar c xs
    if x = c then [] :: r
    else
      match r with
      | [] => [[x]]
      | h :: t => (x :: h) :: t

/-- `urlparse(url).path.strip("/").split("/")[-1]` (scraper.py line 287). -/
def slugOf (url : String) : String :=
  match ((splitOnChar '/' (stripChar '/' (pathOf url).toList)).map String.mk).getLast? with
  | some s => s
  | none => ""

/-- Python string slicing `s[:n]` by code points. -/
def pyTake (s : String) (n : Nat) : String := String.mk (s.toList.take n)

/-- The stock classification (scraper.py lines 277-284). -/
def stockStatusOf (s : PSoup) : String :=
  match s.stockEl with
  | some el =>
    if strContains (pyLower el.textStrip) "disponible"
        || strContains (pyLower el.textStrip) "in stock" then "instock"
    else "outofstock"
  | none => if s.addToCart.isSome then "instock" else "outofstock"

/-- `parse_product_page` (scraper.py lines 207-311).  Every operation in
this model is total, so the broad `except` that logs and returns `None`
needs no separate representation. -/
def parse_product_page (s : PSoup) (url : String) : Option Product :=
  let name :=
    match orEl s.productTitle (orEl s.entryTitle s.h1) with
    | some e => e.textStrip
    | none => ""
  if name = "" then none
  else
    let sale_price_raw := saleRaw s
    let regular_price_raw := regularRaw s
    let current_price := orQ sale_price_raw (currentRaw s)
    let short_desc :=
      match s.shortDescEl with
      | some e => e.textSpace
      | none => ""
    let full_desc :=
      match orEl s.tabDescEl s.entryContentEl with
      | some e => e.textSpace
      | none => short_desc
    let imgs0 := (s.galleryAnchors.map (fun e => e.href)).filter (fun h => h ≠ "")
    some {
      name := name
      sku :=
        match s.skuEl with
        | some e => e.textStrip
        | none => ""
      price := current_price
      regular_price := if regular_price_raw ≠ 0 then regular_price_raw else current_price
      sale_price := if regular_price_raw ≠ 0 then some sale_price_raw else none
      description := pyTake full_desc 2000
      short_description := pyTake short_desc 500
      categories := s.postedIn.map (fun e => e.textStrip)
      tags := s.taggedAs.map (fun e => e.textStrip)
      images :=
        (if imgs0.isEmpty then (s.galleryImgs.map imgSrcOf).filter (fun h => h ≠ "")
         else imgs0).take 5
      stock_status := stockStatusOf s
      url := url
      external_id := slugOf url
      attributes := extract_attributes s.attrSoup }

/-- A product page whose sale-zone reading and struck-through regular-price
reading are both `S/. 10.00` — the equal-readings case of claim C2. -/
def c2soup : PSoup :=
  { productTitle := some { textStrip := "Vino Tinto" },
    priceInsBdi := some { textStrip := "S/. 10.00" },
    priceDelBdi := some { textStrip := "S/. 10.00" },
    priceBdi := some { textStrip := "S/. 10.00" } }

/-- The record `parse_product_page` produces from `c2soup`. -/
def c2rec : Product :=
  { name := "Vino Tinto", sku := "",
    price := 10, regular_price := 10, sale_price := some 10,
    description := "", short_description := "",
    categories := [], tags := [], images := [],
    stock_status := "outofstock",
    url := "https://panuts.com/producto/vino-tinto/",
    external_id := "vino-tinto",
    attributes := [] }

/-- A page with no usable name text but plenty of other content (claim C8's
witness input). -/
def c8soup : PSoup :=
  { productTitle := some { textStrip := "" },
    skuEl := some { textStrip := "SKU-1" },
    priceBdi := some { textStrip := "S/. 45.00" },
    addToCart := some ({} : PElem) }

/-! ## Catalogue discovery (`discover_product_urls`, scraper.py lines 317-376) -/

/-- The anchor queries of one listing page: the `href` of every `a[href]`
element, the `get("href","")` of the pagination anchors
(`.next.page-numbers, a.next`) and of the category anchors
(`.product-categories a, .widget_product_categories a`), in document order. -/
structure CrawlPage where
  anchorHrefs : List String
  nextHrefs : List String
  catHrefs : List String

/-- Model of `urljoin(BASE_URL, href)` for the href shapes the crawler
meets: an absolute URL stays; an empty href resolves to the base; a
root-relative href attaches to the base scheme and host; other relative
hrefs are resolved against the site root (the base URL has an empty path).
RFC 3986 dot-segment handling is not modelled (never exercised). -/
def pyUrljoin (base href : String) : String :=
  if href = "" then base
  else if (schemeSplitChars href.toList).isSome then href
  else
    match schemeSplitChars base.toList with
    | none => href
    | some (sch, _) =>
      if href.toList.head? = some '/' then
        String.mk sch ++ "://" ++ netlocOf base ++ href
      else
        String.mk sch ++ "://" ++ netlocOf base ++ "/" ++ href

/-- The `SCRAPER_MAX_PAGES` default (scraper.py line 32). -/
def MAX_PAGES : Nat := 20

/-- Python `set.add` on the model of a string set: the contents are kept as
a duplicate-free list in insertion order; the iteration order of the real
CPython set is abstracted by the `enum` parameter of
`discover_product_urls`. -/
def setAdd (s : List String) (x : String) : List String :=
  if x ∈ s then s else s ++ [x]

/-- The crawler state: discovered product URLs and visited listing pages
(set contents), the pending FIFO queue, and the page budget counter. -/
structure DiscState where
  productUrls : List String
  visited : List String
  queue : List String
  pageCount : Nat

/-- The per-anchor body of the product-link scan (scraper.py lines
351-360): resolve, test, add to the set. -/
def scanAnchor (acc : List String) (href : String) : List String :=
  if acceptsProductURL (pyUrljoin BASE_URL href) then
    setAdd acc (pyUrljoin BASE_URL href)
  else acc

/-- Enqueue the pagination/category links that are unvisited and
robots-allowed (scraper.py lines 363-372). -/
def enqueueLinks (rp : RobotState) (visited : List String) (hrefs : List String) :
    List String :=
  hrefs.filterMap (fun h =>
    if pyUrljoin BASE_URL h ∉ visited ∧ canFetch rp "*" (pyUrljoin BASE_URL h) then
      some (pyUrljoin BASE_URL h)
    else none)

/-- The crawl loop (scraper.py lines 337-374) as a fuel-indexed recursion:
one unit of fuel per `while` iteration.  The Python loop always terminates
(every iteration pops the queue and the queue grows only on one of the at
most `MAX_PAGES` fetches), so every complete run is reproduced by every
sufficiently large fuel. -/
def discoverLoop (fetch : String → Option CrawlPage) (rp : RobotState) :
    Nat → DiscState → DiscState
  | 0, st => st
  | fuel + 1, st =>
    if st.pageCount ≥ MAX_PAGES then st
    else
      match st.queue with
      | [] => st
      | pageUrl :: rest =>
        if pageUrl ∈ st.visited then
          discoverLoop fetch rp fuel { st with queue := rest }
        else
          let st1 : DiscState :=
            { st with queue := rest,
                      visited := st.visited ++ [pageUrl],
                      pageCount := st.pageCount + 1 }
          match fetch pageUrl with
          | none => discoverLoop fetch rp fuel st1
          | some page =>
            let st2 : DiscState :=
              { st1 with productUrls := page.anchorHrefs.foldl scanAnchor st1.productUrls }
            let st3 : DiscState :=
              { st2 with queue := st2.queue ++ enqueueLinks rp st2.visited page.nextHrefs }
            let st4 : DiscState :=
              { st3 with queue := st3.queue ++ enqueueLinks rp st3.visited page.catHrefs }
            discoverLoop fetch rp fuel st4

/-- The seeded queue: the four entry points filtered by the robots gate
(scraper.py lines 322-334). -/
def entryQueue (rp : RobotState) : List String :=
  [BASE_URL ++ "/tienda/", BASE_URL ++ "/shop/", BASE_URL ++ "/productos/",
   BASE_URL ++ "/"].filter (fun ep => canFetch rp "*" ep)

/-- `discover_product_urls` (scraper.py lines 317-376).  The final
`return list(product_urls)` enumerates a Python `set`, whose iteration order
the language leaves unspecified; `enum` abstracts that order, and the
theorems assume about it only that it enumerates the set's elements (a
permutation). -/
def discover_product_urls (fetch : String → Option CrawlPage) (rp : RobotState)
    (enum : List String → List String) (fuel : Nat) : List String :=
  enum (discoverLoop fetch rp fuel
    { productUrls := [], visited := [], queue := entryQueue rp, pageCount := 0 }).productUrls

/-- `sorted(product_urls)` as applied by `main` before phase 2
(scraper.py line 420). -/
def pySorted (l : List String) : List String := l.mergeSort

/-- A robots policy parsed from an HTTP 200 response with an empty body:
no entries, so everything is allowed. -/
def permissiveRobots : RobotState := parseRobots []

/-- A site with a single listing page linking two products in reverse
alphabetical order (claim C3's counterexample input). -/
def c3fetch : String → Option CrawlPage := fun u =>
  if u = BASE_URL ++ "/tienda/" then
    some { anchorHrefs := ["https://panuts.com/producto/zinfandel/",
                           "https://panuts.com/producto/albarino/"],
           nextHrefs := [], catHrefs := [] }
  else none

/-! ## The enricher (`main` of enrich-attributes.py, lines 131-174) -/

/-- A JSON product record as read back from `products.json`. -/
abbrev JRecord := List (String × JVal)

/-- `product.get("url", "")` (enrich-attributes.py line 149). -/
def recUrl (r : JRecord) : JVal := (jGet r "url").getD (.str "")

/-- Python `d[k] = v` on a JSON object: overwrite in place, else append. -/
def dictSetJ : JRecord → String → JVal → JRecord
  | [], k, v => [(k, v)]
  | (k1, v1) :: t, k, v => if k1 = k then (k, v) :: t else (k1, v1) :: dictSetJ t k v

/-- An attributes dict as the JSON value stored into the record. -/
def jvalOfAttrs (a : Attrs) : JVal := .obj (a.map (fun kv => (kv.1, JVal.str kv.2)))

/-- The per-record body of the enrichment loop (enrich-attributes.py lines
148-164): a record whose `url` is falsy is skipped untouched; otherwise
`fetch_attributes` runs and its result overwrites the record's `attributes`
key (the empty dict when nothing was found or the fetch failed).  The
function is only ever handed the string payload of the url — on a non-string
truthy url `session.get` raises inside the `try` of `fetch_attributes`,
yielding `{}`, which the non-`.str` arm reproduces.  Returns the rewritten
record, the skipped flag, and the enriched flag. -/
def enrichStep (fetchPage : String → Option AttrSoup) (r : JRecord) :
    JRecord × Bool × Bool :=
  if jTruthy (recUrl r) = false then (r, true, false)
  else
    let attrs :=
      match recUrl r with
      | .str s => fetch_attributes fetchPage s
      | _ => []
    (dictSetJ r "attributes" (jvalOfAttrs attrs), false, !attrs.isEmpty)

/-- The enrichment loop over the whole record array (enrich-attributes.py
lines 148-164): the rewritten records in order, with the skipped and
enriched counters. -/
def enrichLoop (fetchPage : String → Option AttrSoup) :
    List JRecord → List JRecord × Nat × Nat
  | [] => ([], 0, 0)
  | r :: rest =>
    let step := enrichStep fetchPage r
    let restRes := enrichLoop fetchPage rest
    (step.1 :: restRes.1,
     restRes.2.1 + (if step.2.1 then 1 else 0),
     restRes.2.2 + (if step.2.2 then 1 else 0))

/-- A record with no `url` key (skipped by the enricher). -/
def c9rec0 : JRecord := [("name", .str "Vino")]

/-- A record with a re-fetchable URL and previously stored attributes. -/
def c9rec1 : JRecord :=
  [("name", .str "Pisco"),
   ("url", .str "https://panuts.com/producto/pisco/"),
   ("attributes", .obj [("pais", .str "Peru")])]

/-- The input array of claim C9's witness run. -/
def c9records : List JRecord := [c9rec0, c9rec1]

/-- What the witness run (every fetch failing) rewrites `c9rec1` into. -/
def c9out1 : JRecord :=
  [("name", .str "Pisco"),
   ("url", .str "https://panuts.com/producto/pisco/"),
   ("attributes", .obj [])]

/-- Claim C10's witness record: non-empty URL, non-empty stored attributes. -/
def c10record : JRecord :=
  [("name", .str "Vino"),
   ("url", .str "https://panuts.com/producto/vino/"),
   ("attributes", .obj [("marca", .str "Tabernero")])]

/-- What the failing re-fetch rewrites `c10record` into. -/
def c10out : JRecord :=
  [("name", .str "Vino"),
   ("url", .str "https://panuts.com/producto/vino/"),
   ("attributes", .obj [])]

/-! ## Theorems -/

/-- Helper: `List.isPrefixOf` agrees with "there is a completing tail". -/
theorem isPrefixOf_iff_append {p l : List Char} :
    p.isPrefixOf l = true ↔ ∃ r, l = p ++ r := by
  induction p generalizing l with
  | nil => simp [List.isPrefixOf]
  | cons a as ih =>
    cases l with
    | nil => simp [List.isPrefixOf]
    | cons b bs =>
      simp only [List.isPrefixOf, Bool.and_eq_true, beq_iff_eq, ih, List.cons_append,
        List.cons.injEq]
      constructor
      · rintro ⟨rfl, r, rfl⟩; exact ⟨r, rfl, rfl⟩
      · rintro ⟨r, rfl, rfl⟩; exact ⟨rfl, r, rfl⟩

/-- Helper: last element of `l ++ [a]`. -/
theorem getLast?_append_singleton {l : List Char} {a : Char} :
    (l ++ [a]).getLast? = some a := by
  induction l with
  | nil => rfl
  | cons b bs ih =>
    rw [List.cons_append, List.getLast?_cons, ih]
    rfl

/-- Helper: dropping the last element of `l ++ [a]`. -/
theorem dropLast_append_singleton {l : List Char} {a : Char} :
    (l ++ [a]).dropLast = l := by
  induction l with
  | nil => rfl
  | cons b bs ih =>
    cases bs with
    | nil => rfl
    | cons c cs => simp [List.dropLast, ih]

/-- Helper: `slugOk` is exactly the `[^/]+/?`-to-the-end property. -/
theorem slugOk_iff {r : List Char} :
    slugOk r = true ↔
      ∃ slug t, r = slug ++ t ∧ slug ≠ [] ∧ noSlash slug = true ∧
        (t = [] ∨ t = ['/']) := by
  induction r using List.reverseRecOn with
  | nil =>
    constructor
    · intro h; simp [slugOk] at h
    · rintro ⟨slug, t, heq, hne, -, -⟩
      exact absurd (List.append_eq_nil.mp heq.symm).1 hne
  | append_singleton as a ih =>
    by_cases ha : a = '/'
    · subst ha
      have hr : slugOk (as ++ ['/']) = (!as.isEmpty && noSlash as) := by
        simp [slugOk, getLast?_append_singleton, dropLast_append_singleton]
      rw [hr]
      constructor
      · intro h
        rw [Bool.and_eq_true] at h
        refine ⟨as, ['/'], rfl, ?_, h.2, Or.inr rfl⟩
        intro hnil
        subst hnil
        simp at h
      · rintro ⟨slug, t, heq, hne, hns, ht | ht⟩
        · subst ht
          rw [List.append_nil] at heq
          subst heq
          simp [noSlash] at hns
        · subst ht
          have has : as = slug := by
            have h2 := congrArg List.dropLast heq
            rwa [dropLast_append_singleton, dropLast_append_singleton] at h2
          subst has
          rw [Bool.and_eq_true]
          exact ⟨by simpa using hne, hns⟩
    · have hr : slugOk (as ++ [a]) = (!(as ++ [a]).isEmpty && noSlash (as ++ [a])) := by
        simp [slugOk, getLast?_append_singleton, ha]
      rw [hr]
      constructor
      · intro h
        rw [Bool.and_eq_true] at h
        exact ⟨as ++ [a], [], by simp, by simp, h.2, Or.inl rfl⟩
      · rintro ⟨slug, t, heq, hne, hns, ht | ht⟩
        · subst ht
          rw [List.append_nil] at heq
          rw [heq, Bool.and_eq_true]
          exact ⟨by simpa using hne, hns⟩
        · subst ht
          have hslash : a = '/' := by
            have h2 := congrArg List.getLast? heq
            rw [getLast?_append_singleton, getLast?_append_singleton] at h2
            exact Option.some.inj h2
          exact absurd hslash ha

/-- Helper: `tailMatch w` recognizes exactly the full-tail decomposition. -/
theorem tailMatch_iff {w l : List Char} :
    tailMatch w l = true ↔
      ∃ slug t, l = '/' :: (w ++ '/' :: (slug ++ t)) ∧ slug ≠ [] ∧
        noSlash slug = true ∧ (t = [] ∨ t = ['/']) := by
  unfold tailMatch
  rw [Bool.and_eq_true, isPrefixOf_iff_append]
  constructor
  · rintro ⟨⟨r, rfl⟩, hs⟩
    have hdrop : (('/' :: (w ++ ['/'])) ++ r).drop (w.length + 2) = r := by
      have hlen : ('/' :: (w ++ ['/'])).length = w.length + 2 := by simp
      rw [← hlen, List.drop_left]
    rw [hdrop] at hs
    obtain ⟨slug, t, rfl, h1, h2, h3⟩ := slugOk_iff.mp hs
    exact ⟨slug, t, by simp, h1, h2, h3⟩
  · rintro ⟨slug, t, rfl, h1, h2, h3⟩
    refine ⟨⟨slug ++ t, by simp⟩, ?_⟩
    have hdrop : ('/' :: (w ++ '/' :: (slug ++ t))).drop (w.length + 2) = slug ++ t := by
      have hlen : ('/' :: (w ++ ['/'])).length = w.length + 2 := by simp
      have hshape : '/' :: (w ++ '/' :: (slug ++ t)) =
          ('/' :: (w ++ ['/'])) ++ (slug ++ t) := by simp
      rw [hshape, ← hlen, List.drop_left]
    rw [hdrop]
    exact slugOk_iff.mpr ⟨slug, t, rfl, h1, h2, h3⟩

/-- Helper: the suffix-scan matches the spec-side decomposition. -/
theorem productPathTest_iff {path : String} :
    productPathTest path = true ↔ SpecProductPath path := by
  unfold productPathTest SpecProductPath
  rw [List.any_eq_true]
  constructor
  · rintro ⟨l, hl, hm⟩
    rw [List.mem_tails] at hl
    obtain ⟨pre, hpre⟩ := hl
    rw [Bool.or_eq_true] at hm
    rcases hm with h | h
    · obtain ⟨slug, t, rfl, h1, h2, h3⟩ := tailMatch_iff.mp h
      exact ⟨pre, _, slug, t, hpre.symm, Or.inl rfl, h1, h2, h3⟩
    · obtain ⟨slug, t, rfl, h1, h2, h3⟩ := tailMatch_iff.mp h
      exact ⟨pre, _, slug, t, hpre.symm, Or.inr rfl, h1, h2, h3⟩
  · rintro ⟨pre, w, slug, t, hpath, hw, h1, h2, h3⟩
    refine ⟨'/' :: (w ++ '/' :: (slug ++ t)), ?_, ?_⟩
    · rw [List.mem_tails]
      exact ⟨pre, hpath.symm⟩
    · rw [Bool.or_eq_true]
      rcases hw with rfl | rfl
      · exact Or.inl (tailMatch_iff.mpr ⟨slug, t, rfl, h1, h2, h3⟩)
      · exact Or.inr (tailMatch_iff.mpr ⟨slug, t, rfl, h1, h2, h3⟩)

/-- Claim C4: `parse_price` maps `"1,556.00"` to 1556.00, `"1.556,00"` to
1556.00, `"S/. 45"` to 45.0, the empty string to 0.0, and `"abc"` to 0.0. -/
theorem c4_parse_price_examples :
    parse_price "1,556.00" = 1556 ∧
    parse_price "1.556,00" = 1556 ∧
    parse_price "S/. 45" = 45 ∧
    parse_price "" = 0 ∧
    parse_price "abc" = 0 := by
  refine ⟨?_, ?_, ?_, ?_, ?_⟩ <;> decide

/-- Claim C5: the discoverer's product-URL test accepts exactly those
same-host URLs whose path ends in a segment literally `producto` or `product`
followed by a single non-empty slug segment (optionally with a trailing
slash); in particular `/producto/malbec-reserva/` is accepted while
`/producto/` (no slug) and `/blog/post/` are rejected. -/
theorem c5_product_url_test_characterization :
    (∀ url : String,
      acceptsProductURL url = true ↔
        (netlocOf url = netlocOf BASE_URL ∧ SpecProductPath (pathOf url))) ∧
    acceptsProductURL "https://panuts.com/producto/malbec-reserva/" = true ∧
    acceptsProductURL "https://panuts.com/producto/" = false ∧
    acceptsProductURL "https://panuts.com/blog/post/" = false := by
  refine ⟨?_, by decide, by decide, by decide⟩
  intro url
  unfold acceptsProductURL
  rw [Bool.and_eq_true, beq_iff_eq, productPathTest_iff]


/-- Claim C1 (refuted; code bug): the claim says that for any robots.txt
outcome other than 200/401/403 the built policy declares no restrictions
(`can_fetch` true everywhere) and the run proceeds.  The code instead
returns the freshly constructed `RobotFileParser` untouched, and CPython's
`can_fetch` answers `False` for every agent and URL while `last_checked` is
unset — so `main` aborts at the startup root-policy check, contradicting the
code's own comment "For 404 or other errors: allow crawling". -/
theorem c1_robots_other_outcome_denies_all :
    (∀ ua url : String,
      canFetch (build_robot_policy (.status 404 [])) ua url = false) ∧
    (∀ ua url : String,
      canFetch (build_robot_policy .netError) ua url = false) ∧
    robotsStartupAborts (build_robot_policy (.status 404 [])) = true ∧
    robotsStartupAborts (build_robot_policy .netError) = true := by
  refine ⟨fun ua url => rfl, fun ua url => rfl, rfl, rfl⟩

/-- Helper: a successful label lookup lands in the allowed key set. -/
theorem labelGet_allowed {s v : String} (h : labelGet s = some v) :
    v ∈ allowedAttrKeys := by
  unfold labelGet at h
  rcases hf : ATTR_LABEL_MAP.find? (fun p => p.1 == s) with _ | p
  · rw [hf] at h
    simp at h
  · rw [hf] at h
    simp only [Option.map_some'] at h
    have hp : p ∈ ATTR_LABEL_MAP := List.mem_of_find?_eq_some hf
    have hv := Option.some.inj h
    subst hv
    simp only [ATTR_LABEL_MAP, List.mem_cons, List.not_mem_nil, or_false] at hp
    rcases hp with rfl | rfl | rfl | rfl | rfl | rfl | rfl | rfl <;> decide

/-- Helper: keys after a Python dict update. -/
theorem attrsSet_keys {d : Attrs} {k0 v0 k : String}
    (h : k ∈ (attrsSet d k0 v0).map Prod.fst) : k = k0 ∨ k ∈ d.map Prod.fst := by
  induction d with
  | nil =>
    simp [attrsSet] at h
    exact Or.inl h
  | cons p t ih =>
    obtain ⟨k1, v1⟩ := p
    rw [attrsSet] at h
    by_cases hk : k1 = k0
    · rw [if_pos hk] at h
      simp only [List.map_cons, List.mem_cons] at h
      rcases h with rfl | h
      · exact Or.inl rfl
      · exact Or.inr (by simp only [List.map_cons, List.mem_cons]; exact Or.inr h)
    · rw [if_neg hk] at h
      simp only [List.map_cons, List.mem_cons] at h
      rcases h with rfl | h
      · exact Or.inr (by simp)
      · rcases ih h with h1 | h1
        · exact Or.inl h1
        · exact Or.inr (by simp only [List.map_cons, List.mem_cons]; exact Or.inr h1)

/-- Helper: one Strategy 1 step preserves the key invariant. -/
theorem s1step_keys {d : Attrs} {p : String × String} (h : keysAllowed d) :
    keysAllowed (s1step d p) := by
  intro k hk
  unfold s1step at hk
  split at hk
  · rename_i slug hl
    split at hk
    · rcases attrsSet_keys hk with rfl | hk2
      · exact labelGet_allowed hl
      · exact h k hk2
    · exact h k hk
  · exact h k hk

/-- Helper: the Strategy 1 fold preserves the key invariant. -/
theorem foldl_s1step_keys (l : List (String × String)) (init : Attrs)
    (h : keysAllowed init) : keysAllowed (l.foldl s1step init) := by
  induction l generalizing init with
  | nil => exact h
  | cons p t ih => exact ih _ (s1step_keys h)

/-- Helper: Strategy 1 only produces allowed keys. -/
theorem strategy1_keys (blk : Option AttrBlock) : keysAllowed (strategy1 blk) := by
  unfold strategy1
  rcases blk with _ | b
  · intro k hk
    simp at hk
  · exact foldl_s1step_keys _ _ (fun k hk => by simp at hk)

/-- Helper: a single property step preserves the key invariant, whether it
completes or raises. -/
theorem processProp_keys {attrs : Attrs} {p : JVal} (h : keysAllowed attrs) :
    (∀ a, processProp attrs p = .ok a → keysAllowed a) ∧
    (∀ a, processProp attrs p = .error a → keysAllowed a) := by
  constructor <;> intro a he
  · unfold processProp at he
    rcases p with _ | b | n | s | xs | kvs
    case obj =>
      simp only at he
      split at he
      · cases he
        exact h
      · split at he
        · split at he
          · cases he
            intro k hk
            rcases attrsSet_keys hk with rfl | hk2
            · exact labelGet_allowed (by assumption)
            · exact h k hk2
          · cases he
            exact h
        · cases he
    all_goals cases he
  · unfold processProp at he
    rcases p with _ | b | n | s | xs | kvs
    case obj =>
      simp only at he
      split at he
      · cases he
      · split at he
        · split at he <;> cases he
        · cases he
          exact h
    all_goals cases he; exact h

/-- Helper: the property fold preserves the key invariant. -/
theorem processProps_keys (props : List JVal) (attrs : Attrs)
    (h : keysAllowed attrs) : keysAllowed (processProps attrs props).1 := by
  induction props generalizing attrs with
  | nil => exact h
  | cons p rest ih =>
    rw [processProps]
    rcases he : processProp attrs p with a | a
    · exact (processProp_keys h).2 a he
    · exact ih _ ((processProp_keys h).1 a he)

/-- Helper: one script step preserves the key invariant. -/
theorem processScript_keys {attrs : Attrs} {sc : Option JVal} (h : keysAllowed attrs) :
    keysAllowed (processScript attrs sc).1 := by
  unfold processScript
  rcases sc with _ | data0
  · exact h
  · simp only
    split
    · split
      · rcases hps : propsSource _ with u | props
        · exact h
        · exact processProps_keys _ _ h
      · exact h
    · exact h

/-- Helper: the scraper Strategy 2 loop only produces allowed keys. -/
theorem strategy2_scraper_keys (scripts : List (Option JVal)) (attrs : Attrs)
    (h : keysAllowed attrs) : keysAllowed (strategy2_scraper attrs scripts) := by
  induction scripts generalizing attrs with
  | nil =>
    intro k hk
    simp [strategy2_scraper] at hk
  | cons sc rest ih =>
    rw [strategy2_scraper]
    split
    · exact processScript_keys h
    · exact ih _ (processScript_keys h)

/-- Helper: the enricher Strategy 2 loop only produces allowed keys. -/
theorem strategy2_enrich_keys (scripts : List (Option JVal)) (attrs : Attrs)
    (h : keysAllowed attrs) : keysAllowed (strategy2_enrich attrs scripts) := by
  induction scripts generalizing attrs with
  | nil => exact h
  | cons sc rest ih =>
    rw [strategy2_enrich]
    split
    · exact processScript_keys h
    · exact ih _ (processScript_keys h)

/-- Claim C7: every attributes mapping produced by either extraction routine
(`extract_attributes` in the scraper, `fetch_attributes` in the enricher)
has its key set contained in {marca, pais, region, tipo, varietal, volumen},
for every input document and fetch behaviour. -/
theorem c7_attribute_keys_subset :
    (∀ (soup : AttrSoup) (k : String),
        k ∈ (extract_attributes soup).map Prod.fst → k ∈ allowedAttrKeys) ∧
    (∀ (fetchPage : String → Option AttrSoup) (url : String) (k : String),
        k ∈ (fetch_attributes fetchPage url).map Prod.fst → k ∈ allowedAttrKeys) := by
  constructor
  · intro soup
    simp only [extract_attributes]
    split
    · exact strategy1_keys soup.attrBlock
    · exact strategy2_scraper_keys _ _ (strategy1_keys soup.attrBlock)
  · intro fetchPage url
    unfold fetch_attributes
    split
    · intro k hk
      simp at hk
    · rename_i soup hfp
      simp only [enrichExtract]
      split
      · exact strategy1_keys soup.attrBlock
      · exact strategy2_enrich_keys _ _ (strategy1_keys soup.attrBlock)

/-- Claim C6: whenever Strategy 1 yields a non-empty mapping,
`extract_attributes` returns exactly that mapping and the JSON-LD fallback is
never consulted — the result does not depend on the scripts at all, even when
Strategy 2 would have yielded a different non-empty result. -/
theorem c6_strategy1_precedence (blk : Option AttrBlock) (scripts : List (Option JVal))
    (h : strategy1 blk ≠ []) :
    extract_attributes ⟨blk, scripts⟩ = strategy1 blk := by
  unfold extract_attributes
  simp only
  rw [if_pos h]

/-- A concrete page whose attribute block yields `marca = Tabernero`. -/
def c6blk : Option AttrBlock := some ⟨["Marca"], ["Tabernero"]⟩

/-- A concrete JSON-LD script whose Strategy 2 result would be
`marca = Otra` — different from the Strategy 1 result. -/
def c6scripts : List (Option JVal) :=
  [some (.obj [("@type", .str "Product"),
               ("additionalProperty",
                .arr [.obj [("name", .str "pa_marca"), ("value", .str "Otra")]])])]

theorem c6_strategy1_precedence_witness :
    strategy1 c6blk = [("marca", "Tabernero")] ∧
    strategy2_scraper [] c6scripts = [("marca", "Otra")] ∧
    extract_attributes ⟨c6blk, c6scripts⟩ = strategy1 c6blk :=
  ⟨rfl, rfl, c6_strategy1_precedence c6blk c6scripts (by decide)⟩

theorem c7_attribute_keys_subset_witness :
    ("marca" ∈ (extract_attributes ⟨c6blk, []⟩).map Prod.fst) ∧
    "marca" ∈ allowedAttrKeys :=
  ⟨by decide, c7_attribute_keys_subset.1 ⟨c6blk, []⟩ "marca" (by decide)⟩

/-- Claim C2 (refuted), counterexample: on a page where the sale-zone
reading and the struck-through regular-price reading are both 10, the
produced record has `sale_price = some 10` and `regular_price = 10` — the
sale price is present and not strictly below the regular price, where the
claim demands it be absent. -/
theorem c2_equal_readings_sale_price_present :
    (parse_product_page c2soup "https://panuts.com/producto/vino-tinto/").map
        (fun p => (p.sale_price, p.regular_price)) = some (some 10, 10) ∧
    ¬ ((some (10 : ℚ) = none) ∨ (10 : ℚ) < (10 : ℚ)) := by
  constructor
  · decide
  · simp

/-- Claim C2 as amended: `sale_price` is absent exactly when the
struck-through regular-price reading is zero/absent; when that reading is
non-zero, `sale_price` equals the sale-zone reading (which may equal — or
even exceed — `regular_price`; no strict inequality holds). -/
theorem c2_sale_price_policy (s : PSoup) (url : String) (p : Product)
    (h : parse_product_page s url = some p) :
    (p.sale_price = none ↔ regularRaw s = 0) ∧
    (regularRaw s ≠ 0 →
      p.sale_price = some (saleRaw s) ∧ p.regular_price = regularRaw s) := by
  simp only [parse_product_page] at h
  split at h
  · cases h
  · have hp := Option.some.inj h
    subst hp
    by_cases hr : regularRaw s = 0
    · simp [hr]
    · simp [hr]

/-- Witness for the amended C2 at the concrete equal-readings page. -/
theorem c2_sale_price_policy_witness :
    (c2rec.sale_price = none ↔ regularRaw c2soup = 0) ∧
    (regularRaw c2soup ≠ 0 →
      c2rec.sale_price = some (saleRaw c2soup) ∧
      c2rec.regular_price = regularRaw c2soup) :=
  c2_sale_price_policy c2soup "https://panuts.com/producto/vino-tinto/" c2rec (by decide)

/-- Claim C8: when none of the three name selectors yields a non-empty name
text, `parse_product_page` returns no record at all, whatever else is on the
page. -/
theorem c8_no_name_no_record (s : PSoup) (url : String)
    (h1 : (s.productTitle.map PElem.textStrip).getD "" = "")
    (h2 : (s.entryTitle.map PElem.textStrip).getD "" = "")
    (h3 : (s.h1.map PElem.textStrip).getD "" = "") :
    parse_product_page s url = none := by
  have hname : (match orEl s.productTitle (orEl s.entryTitle s.h1) with
      | some e => e.textStrip
      | none => "") = "" := by
    rcases hpt : s.productTitle with _ | e1
    · rcases het : s.entryTitle with _ | e2
      · rcases hh : s.h1 with _ | e3
        · simp [orEl]
        · rw [hh] at h3
          simp only [Option.map_some', Option.getD_some] at h3
          simp [orEl, h3]
      · rw [het] at h2
        simp only [Option.map_some', Option.getD_some] at h2
        simp [orEl, h2]
    · rw [hpt] at h1
      simp only [Option.map_some', Option.getD_some] at h1
      simp [orEl, h1]
  simp only [parse_product_page]
  rw [if_pos hname]

/-- Witness for C8: a page with SKU, price and an add-to-cart control but an
empty name text produces no record. -/
theorem c8_no_name_no_record_witness :
    parse_product_page c8soup "https://panuts.com/producto/x/" = none :=
  c8_no_name_no_record c8soup "https://panuts.com/producto/x/"
    (by decide) (by decide) (by decide)

/-- Claim C3 (refuted), counterexample: with the identity as the (admissible)
set enumeration, `discover_product_urls` returns the two discovered product
URLs in insertion order — zinfandel before albarino — which is not ascending
string order; the function applies no sorting (`main` does, afterwards). -/
theorem c3_discover_output_not_sorted :
    discover_product_urls c3fetch permissiveRobots id 8 =
      ["https://panuts.com/producto/zinfandel/",
       "https://panuts.com/producto/albarino/"] ∧
    ¬ List.Sorted (fun a b : String => a ≤ b)
        (discover_product_urls c3fetch permissiveRobots id 8) := by
  have heval : discover_product_urls c3fetch permissiveRobots id 8 =
      ["https://panuts.com/producto/zinfandel/",
       "https://panuts.com/producto/albarino/"] := by decide
  refine ⟨heval, ?_⟩
  rw [heval]
  intro h
  rw [List.sorted_cons] at h
  have hle := h.1 "https://panuts.com/producto/albarino/" (by simp)
  have hlt : ("https://panuts.com/producto/albarino/" : String) <
      "https://panuts.com/producto/zinfandel/" := by
    rw [String.lt_iff_toList_lt]
    decide
  exact absurd hle (not_le.mpr hlt)

/-- Helper: `set.add` keeps the contents duplicate-free. -/
theorem setAdd_nodup {s : List String} {x : String} (h : s.Nodup) :
    (setAdd s x).Nodup := by
  unfold setAdd
  split
  · exact h
  · rename_i hx
    simp [List.nodup_append, h, hx]

/-- Helper: one anchor-scan step keeps the contents duplicate-free. -/
theorem scanAnchor_nodup {acc : List String} {href : String} (h : acc.Nodup) :
    (scanAnchor acc href).Nodup := by
  unfold scanAnchor
  split
  · exact setAdd_nodup h
  · exact h

/-- Helper: the anchor-scan fold keeps the contents duplicate-free. -/
theorem foldl_scanAnchor_nodup (l : List String) (acc : List String) (h : acc.Nodup) :
    (l.foldl scanAnchor acc).Nodup := by
  induction l generalizing acc with
  | nil => exact h
  | cons a t ih => exact ih _ (scanAnchor_nodup h)

/-- Helper: the crawl loop keeps the discovered set duplicate-free. -/
theorem discoverLoop_nodup (fetch : String → Option CrawlPage) (rp : RobotState)
    (fuel : Nat) (st : DiscState) (h : st.productUrls.Nodup) :
    (discoverLoop fetch rp fuel st).productUrls.Nodup := by
  induction fuel generalizing st with
  | zero => exact h
  | succ n ih =>
    simp only [discoverLoop]
    split
    · exact h
    · split
      · exact h
      · split
        · exact ih _ h
        · split
          · exact ih _ h
          · exact ih _ (foldl_scanAnchor_nodup _ _ h)

/-- Claim C3 as amended: `discover_product_urls` returns the discovered
product-URL set as a duplicate-free sequence in unspecified (set-iteration)
order — for every admissible enumeration the output is a permutation of the
set contents with no duplicates — and the sorted order is established by
`main`, which applies `sorted(...)` to it before phase 2. -/
theorem c3_discover_set_unordered_sorted_in_main
    (fetch : String → Option CrawlPage) (rp : RobotState)
    (enum : List String → List String) (fuel : Nat)
    (henum : ∀ l : List String, (enum l).Perm l) :
    (discover_product_urls fetch rp enum fuel).Nodup ∧
    (discover_product_urls fetch rp enum fuel).Perm
      (discoverLoop fetch rp fuel
        { productUrls := [], visited := [], queue := entryQueue rp,
          pageCount := 0 }).productUrls ∧
    List.Sorted (fun a b : String => a ≤ b)
      (pySorted (discover_product_urls fetch rp enum fuel)) := by
  refine ⟨?_, henum _, ?_⟩
  · exact (henum _).symm.nodup
      (discoverLoop_nodup fetch rp fuel _ (by simp))
  · exact List.sorted_mergeSort' _

/-- Witness for the amended C3 at the concrete crawl, with the identity
enumeration. -/
theorem c3_discover_set_witness :
    (discover_product_urls c3fetch permissiveRobots id 8).Nodup ∧
    (discover_product_urls c3fetch permissiveRobots id 8).Perm
      (discoverLoop c3fetch permissiveRobots 8
        { productUrls := [], visited := [], queue := entryQueue permissiveRobots,
          pageCount := 0 }).productUrls ∧
    List.Sorted (fun a b : String => a ≤ b)
      (pySorted (discover_product_urls c3fetch permissiveRobots id 8)) :=
  c3_discover_set_unordered_sorted_in_main c3fetch permissiveRobots id 8
    (fun l => List.Perm.refl l)

/-- Helper: reading another key after a Python dict update is unchanged. -/
theorem dictSetJ_jGet_ne {r : JRecord} {k0 : String} {v : JVal} {k : String}
    (h : k ≠ k0) : jGet (dictSetJ r k0 v) k = jGet r k := by
  have hne : (k0 == k) = false := beq_eq_false_iff_ne.mpr (Ne.symm h)
  induction r with
  | nil => simp [dictSetJ, jGet, List.find?, hne]
  | cons p t ih =>
    obtain ⟨k1, v1⟩ := p
    rw [dictSetJ]
    by_cases hk : k1 = k0
    · rw [if_pos hk]
      subst hk
      simp [jGet, List.find?, hne]
    · rw [if_neg hk]
      simp only [jGet, List.find?] at ih ⊢
      cases hbe : (k1 == k) with
      | true => simp [hbe]
      | false => simpa [hbe] using ih

/-- Helper: reading the updated key yields the new value. -/
theorem dictSetJ_jGet_eq {r : JRecord} {k : String} {v : JVal} :
    jGet (dictSetJ r k v) k = some v := by
  induction r with
  | nil => simp [dictSetJ, jGet, List.find?]
  | cons p t ih =>
    obtain ⟨k1, v1⟩ := p
    rw [dictSetJ]
    by_cases hk : k1 = k
    · rw [if_pos hk]
      simp [jGet, List.find?]
    · rw [if_neg hk]
      have hne : (k1 == k) = false := beq_eq_false_iff_ne.mpr hk
      simpa [jGet, List.find?, hne] using ih

/-- Helper: the rewritten array, element by element. -/
theorem enrichLoop_get? (fetchPage : String → Option AttrSoup)
    (records : List JRecord) (i : Nat) :
    (enrichLoop fetchPage records).1.get? i =
      (records.get? i).map (fun r => (enrichStep fetchPage r).1) := by
  induction records generalizing i with
  | nil => simp [enrichLoop]
  | cons r rest ih =>
    cases i with
    | zero => simp [enrichLoop]
    | succ n => simpa [enrichLoop] using ih n

/-- Helper: one step touches at most the `attributes` key, and a skipped
record not at all. -/
theorem enrichStep_frame (fetchPage : String → Option AttrSoup) (r : JRecord) :
    (∀ k, k ≠ "attributes" → jGet (enrichStep fetchPage r).1 k = jGet r k) ∧
    (jTruthy (recUrl r) = false → (enrichStep fetchPage r).1 = r) := by
  unfold enrichStep
  split
  · exact ⟨fun k _ => rfl, fun _ => rfl⟩
  · rename_i hT
    exact ⟨fun k hk => dictSetJ_jGet_ne hk, fun hf => absurd hf hT⟩

/-- Claim C9: the enrichment run keeps the array length, modifies at most the
`attributes` field of every record (all other keys read unchanged), leaves
records with a falsy (missing or empty) `url` entirely unmodified, and its
skipped counter counts exactly those records. -/
theorem c9_enrich_frame (fetchPage : String → Option AttrSoup)
    (records : List JRecord) :
    (enrichLoop fetchPage records).1.length = records.length ∧
    (∀ i r, records.get? i = some r →
      ∃ r2, (enrichLoop fetchPage records).1.get? i = some r2 ∧
        (∀ k, k ≠ "attributes" → jGet r2 k = jGet r k) ∧
        (jTruthy (recUrl r) = false → r2 = r)) ∧
    (enrichLoop fetchPage records).2.1 =
      records.countP (fun r => !jTruthy (recUrl r)) := by
  refine ⟨?_, ?_, ?_⟩
  · induction records with
    | nil => rfl
    | cons r rest ih => simpa [enrichLoop] using ih
  · intro i r hrec
    refine ⟨(enrichStep fetchPage r).1, ?_, (enrichStep_frame fetchPage r).1,
      (enrichStep_frame fetchPage r).2⟩
    rw [enrichLoop_get?, hrec]
    rfl
  · induction records with
    | nil => rfl
    | cons r rest ih =>
      have hstep : (enrichStep fetchPage r).2.1 = !jTruthy (recUrl r) := by
        unfold enrichStep
        split
        · rename_i hf
          rw [hf]
          rfl
        · rename_i hT
          rw [Bool.not_eq_false] at hT
          rw [hT]
          rfl
      simp [enrichLoop, ih, hstep, List.countP_cons]

/-- Witness for C9 on a two-record array with every re-fetch failing: the
no-url record is returned untouched and counted skipped; the other record
keeps its `name` and `url` readings. -/
theorem c9_enrich_frame_witness :
    c9records.get? 1 = some c9rec1 ∧
    (enrichLoop (fun _ => none) c9records).1.get? 1 = some c9out1 ∧
    jGet c9out1 "name" = jGet c9rec1 "name" ∧
    jGet c9out1 "url" = jGet c9rec1 "url" ∧
    (enrichLoop (fun _ => none) c9records).1.get? 0 = some c9rec0 ∧
    (enrichLoop (fun _ => none) c9records).2.1 = 1 := by
  have h := c9_enrich_frame (fun _ => none) c9records
  obtain ⟨r2, h1, hframe, -⟩ := h.2.1 1 c9rec1 rfl
  have h0 : (enrichLoop (fun _ => none) c9records).1.get? 1 = some c9out1 := rfl
  have hr2 : r2 = c9out1 := Option.some.inj ((h1.symm).trans h0)
  subst hr2
  obtain ⟨r0, g1, -, gskip⟩ := h.2.1 0 c9rec0 rfl
  have hr0 : r0 = c9rec0 := gskip rfl
  subst hr0
  exact ⟨rfl, h0, hframe "name" (by decide), hframe "url" (by decide), g1,
    h.2.2.trans rfl⟩

/-- Claim C10: a record with a non-empty string URL whose re-fetch fails has
its `attributes` key overwritten with the empty mapping in the rewritten
array — whatever attribute values a previous run had stored are erased. -/
theorem c10_enrich_failure_erases_attributes
    (fetchPage : String → Option AttrSoup) (records : List JRecord)
    (i : Nat) (r : JRecord) (s : String)
    (hrec : records.get? i = some r)
    (hurl : recUrl r = .str s) (hs : s ≠ "")
    (hfail : fetchPage s = none) :
    (enrichLoop fetchPage records).1.get? i =
      some (dictSetJ r "attributes" (.obj [])) ∧
    jGet (dictSetJ r "attributes" (.obj [])) "attributes" = some (.obj []) := by
  have hT : jTruthy (recUrl r) = true := by
    rw [hurl]
    simp [jTruthy, hs]
  have hstep : (enrichStep fetchPage r).1 = dictSetJ r "attributes" (.obj []) := by
    unfold enrichStep
    rw [if_neg (by rw [hT]; exact fun he => Bool.true_eq_false.mp he)]
    simp only [hurl]
    unfold fetch_attributes
    rw [hfail]
    rfl
  constructor
  · rw [enrichLoop_get?, hrec]
    simp [hstep]
  · exact dictSetJ_jGet_eq

/-- Witness for C10: one record holding `marca = Tabernero`, every fetch
failing; the rewritten record's attributes are the empty mapping. -/
theorem c10_enrich_failure_erases_attributes_witness :
    (enrichLoop (fun _ => none) [c10record]).1.get? 0 = some c10out ∧
    jGet c10record "attributes" = some (.obj [("marca", .str "Tabernero")]) ∧
    jGet c10out "attributes" = some (.obj []) := by
  have h := c10_enrich_failure_erases_attributes (fun _ => none) [c10record] 0
    c10record "https://panuts.com/producto/vino/" rfl rfl (by decide) rfl
  have hout : dictSetJ c10record "attributes" (.obj []) = c10out := rfl
  exact ⟨hout ▸ h.1, rfl, hout ▸ h.2⟩

end Panuts
